import Mathlib

/-!
Shallow embedding of the retrieval-orchestration layer of the repository:
`AdvancedRAGSystem.rewrite_query`, `AdvancedRAGSystem.hybrid_search`,
`AdvancedRAGSystem.rerank_documents` and `AdvancedRetriever.invoke` from
`vector.py`, and `format_context_advanced`, the response cache and the
broader-search merge of `process_query_advanced_rag` from `main.py`.

Python strings are embedded as `List Char`; Python dicts with string keys as
association lists with first-match lookup and in-place update; the external
model/index calls (Ollama invocations, FAISS `similarity_search`, BM25
`get_relevant_documents`) as oracle functions returning `Except Unit _`,
where `.error` stands for a raised exception.  `hashlib.md5` fingerprints
are embedded injectively by the hashed text itself.
-/

abbrev Str := List Char

/-- Python `str.strip()` whitespace set (space, tab, newline, CR, VT, FF). -/
def pyIsSpace (c : Char) : Bool :=
  c = ' ' || c = '\t' || c = '\n' || c = '\r' || c = '\x0b' || c = '\x0c'

/-- Python `s.strip()`. -/
def pyStrip (s : Str) : Str :=
  ((s.dropWhile pyIsSpace).reverse.dropWhile pyIsSpace).reverse

/-- Python `s.lower()` (ASCII fragment). -/
def pyLower (s : Str) : Str := s.map Char.toLower

/-- Python `s.upper()` (ASCII fragment). -/
def pyUpper (s : Str) : Str := s.map Char.toUpper

/-- Python `s.split()` with no argument: split on whitespace runs, no empties. -/
def pySplitWS (s : Str) : List Str :=
  (s.splitOnP pyIsSpace).filter (· ≠ [])

/-- Python `" ".join(ws)`. -/
def joinSp (ws : List Str) : Str := List.intercalate [' '] ws

/-- Python `l[:n]` for an `int` index `n`, including the negative case. -/
def pySliceTo (n : Int) (l : Str) : Str :=
  if n < 0 then l.take (l.length - (-n).toNat) else l.take n.toNat

/-- Python `s.rfind(c)` for a single character: last index, or -1. -/
def rfindChar (c : Char) : Str → Int
  | [] => -1
  | x :: rest =>
    let r := rfindChar c rest
    if r ≥ 0 then r + 1
    else if x = c then 0 else -1

/-- A langchain `Document`: `page_content` plus a string-keyed metadata dict. -/
structure Doc where
  page_content : Str
  metadata : List (Str × Str)
deriving DecidableEq

/-- Python `dict.get(k)` (None when absent): first matching key. -/
def mget (m : List (Str × Str)) (k : Str) : Option Str :=
  (m.find? (fun p => p.1 = k)).map (fun p => p.2)

/-- Python `dict.get(k, d)`. -/
def mgetD (m : List (Str × Str)) (k : Str) (d : Str) : Str :=
  (mget m k).getD d

/-- Python `m[k] = v` on a dict: replace in place if present, else append. -/
def mset (m : List (Str × Str)) (k v : Str) : List (Str × Str) :=
  match m with
  | [] => [(k, v)]
  | p :: rest => if p.1 = k then (k, v) :: rest else p :: mset rest k v

def kSearchType : Str := "search_type".data
def kQueryVariant : Str := "query_variant".data
def kSource : Str := "source".data
def kPage : Str := "page".data
def sVector : Str := "vector".data
def sBm25 : Str := "bm25".data
def sFallback : Str := "fallback".data
def sStandard : Str := "standard".data
def sUnknown : Str := "Unknown".data
def sHigh : Str := "high".data

/-- `line.startswith('<c>.')` for the numbered rewrite lines. -/
def startsNum (c : Char) (l : Str) : Bool := l.take 2 = [c, '.']

/-- The parsing loop of `rewrite_query`: walk the lines of the model response,
keeping stripped `1.`/`2.`/`3.` lines, dropping empties and exact duplicates,
appending to the accumulated query list (which starts as `[original]`). -/
def collectQueries : List Str → List Str → List Str
  | [], acc => acc
  | line :: rest, acc =>
    let l := pyStrip line
    if l ≠ [] ∧ (startsNum '1' l ∨ startsNum '2' l ∨ startsNum '3' l) then
      let q := pyStrip (l.drop 2)
      if q ≠ [] ∧ q ∉ acc then collectQueries rest (acc ++ [q])
      else collectQueries rest acc
    else collectQueries rest acc

/-- `AdvancedRAGSystem.rewrite_query` (vector.py:75-101).  `resp` is the
outcome of the query-rewriter model call; `.error` is a raised exception,
caught by the bare `except` which returns `[original_query]`. -/
def rewrite_query (original : Str) (resp : Except Unit Str) : List Str :=
  match resp with
  | .ok response =>
      (collectQueries ((pyStrip response).splitOn '\n') [original]).take 4
  | .error _ => [original]

/-- Python `try:` around an external call: `.ok` is the normal value, a
raised exception is recovered to the `except` branch's fallback value. -/
def pyCatch {α : Type} (x : Except Unit α) (d : α) : α :=
  match x with
  | .ok v => v
  | .error _ => d

/-- `try ... except` as a statement in the exception monad: the region never
lets an exception escape. -/
def pyTryE {α : Type} (x : Except Unit α) (d : α) : Except Unit α :=
  match x with
  | .ok v => .ok v
  | .error _ => .ok d

/-- Mutable state of `AdvancedRAGSystem`: whether `self.vectorstore` is not
`None`, whether `self.bm25_retriever` is truthy, and `self.documents`. -/
structure RAGState where
  vectorstore : Bool
  bm25 : Bool
  documents : List Doc
deriving DecidableEq

/-- The external calls made by the pipeline, as oracles.  `rewrite` is the
query-rewriter LLM response for a question, `vsearch` is
`vectorstore.similarity_search(q, k)`, `bmsearch` is
`bm25_retriever.get_relevant_documents(q)`, `score` is the reranker LLM
response for a question/document pair.  `.error` is a raised exception. -/
structure Oracles where
  rewrite : Str → Except Unit Str
  vsearch : Str → Nat → Except Unit (List Doc)
  bmsearch : Str → Except Unit (List Doc)
  score : Str → Doc → Except Unit Str

/-- Tagging of a retrieved chunk: `doc.metadata['search_type'] = st;
doc.metadata['query_variant'] = qv`. -/
def tagDoc (st qv : Str) (d : Doc) : Doc :=
  { d with metadata := mset (mset d.metadata kSearchType st) kQueryVariant qv }

/-- `half_k = max(1, k_int // 2)` (vector.py:113). -/
def half_k (k : Nat) : Nat := max 1 (k / 2)

/-- One iteration of the variant loop of `hybrid_search` (vector.py:110-139):
the tagged vector results (guarded on availability, exceptions recovered to
no contribution) followed by the first `half_k` tagged BM25 results (same
guard and recovery). -/
def variantResults (st : RAGState) (or : Oracles) (k : Nat) (q : Str) : List Doc :=
  (if st.vectorstore then
    pyCatch (Except.map (fun rs => rs.map (tagDoc sVector q)) (or.vsearch q (half_k k))) []
  else []) ++
  (if st.bm25 then
    pyCatch (Except.map (fun rs => (rs.take (half_k k)).map (tagDoc sBm25 q)) (or.bmsearch q)) []
  else [])

/-- The accumulated `all_results` list of `hybrid_search`. -/
def allResults (st : RAGState) (or : Oracles) (query : Str) (k : Nat) : List Doc :=
  (rewrite_query query (or.rewrite query)).foldl
    (fun acc q => acc ++ variantResults st or k q) []

/-- `hashlib.md5(doc.page_content[:200].encode()).hexdigest()` embedded
injectively: the first 200 characters themselves. -/
def fingerprint (d : Doc) : Str := d.page_content.take 200

/-- The dedup loop of `hybrid_search` (vector.py:141-149), generic in the
content key: keep a document when its key is not in `seen`, first
occurrence wins, order preserved. -/
def dedupByKey (key : Doc → Str) : List Doc → List Str → List Doc
  | [], _ => []
  | d :: rest, seen =>
    if key d ∈ seen then dedupByKey key rest seen
    else d :: dedupByKey key rest (key d :: seen)

/-- `AdvancedRAGSystem.hybrid_search` (vector.py:103-167).  Returns the
result list and the post-call state: the fallback path tags the first `k`
global documents in place (`fallback_docs` aliases `self.documents`), so the
state's document list is updated there. -/
def hybrid_search (st : RAGState) (or : Oracles) (query : Str) (k : Nat) :
    List Doc × RAGState :=
  let unique := dedupByKey fingerprint (allResults st or query k) []
  if unique = [] then
    if st.documents ≠ [] then
      let fb := (st.documents.take k).map (tagDoc sFallback query)
      (fb, { st with documents := fb ++ st.documents.drop k })
    else ([], st)
  else (unique.take (k * 2), st)

/-- `rewrite_query` in the exception monad: the whole model call and parse is
wrapped in one `try`, whose `except` returns `[original_query]`. -/
def rewriteE (q : Str) (resp : Except Unit Str) : Except Unit (List Str) :=
  pyTryE (Except.map
    (fun r => (collectQueries ((pyStrip r).splitOn '\n') [q]).take 4) resp) [q]

/-- The variant loop body in the exception monad, with the source's two
`try`/`except` regions around the vector and the BM25 sub-search. -/
def variantResultsE (st : RAGState) (or : Oracles) (k : Nat) (q : Str) :
    Except Unit (List Doc) := do
  let v ← if st.vectorstore then
      pyTryE (Except.map (fun rs => rs.map (tagDoc sVector q)) (or.vsearch q (half_k k))) []
    else pure []
  let b ← if st.bm25 then
      pyTryE (Except.map (fun rs => (rs.take (half_k k)).map (tagDoc sBm25 q)) (or.bmsearch q)) []
    else pure []
  pure (v ++ b)

/-- The variant loop of `hybrid_search` in the exception monad, accumulating
`all_results` across the query variations. -/
def accumResultsE (st : RAGState) (or : Oracles) (k : Nat) :
    List Str → List Doc → Except Unit (List Doc)
  | [], acc => pure acc
  | q :: rest, acc => do
    let r ← variantResultsE st or k q
    accumResultsE st or k rest (acc ++ r)

/-- `hybrid_search` in the exception monad: exceptions of the rewriter and of
each sub-search may occur but are caught exactly where the source catches
them; everything after the accumulation is pure. -/
def hybrid_searchE (st : RAGState) (or : Oracles) (query : Str) (k : Nat) :
    Except Unit (List Doc × RAGState) := do
  let vars ← rewriteE query (or.rewrite query)
  let all ← accumResultsE st or k vars []
  let unique := dedupByKey fingerprint all []
  pure (if unique = [] then
    if st.documents ≠ [] then
      let fb := (st.documents.take k).map (tagDoc sFallback query)
      (fb, { st with documents := fb ++ st.documents.drop k })
    else ([], st)
  else (unique.take (k * 2), st))

/-- `re.search(r'(\d+)', s)`: the first maximal run of digits, if any. -/
def firstDigitRun : Str → Option Str
  | [] => none
  | c :: rest =>
    if c.isDigit then some (c :: rest.takeWhile Char.isDigit) else firstDigitRun rest

def natOfDigits (ds : Str) : Nat :=
  ds.foldl (fun n c => n * 10 + (c.toNat - '0'.toNat)) 0

/-- Score extraction of `rerank_documents` (vector.py:186-197): parse the
first integer of the stripped response, default 5 when absent or when the
scoring call raises, clamp to [1,10] on the parsed path. -/
def parseScore (resp : Except Unit Str) : Nat :=
  match resp with
  | .error _ => 5
  | .ok r =>
    match firstDigitRun (pyStrip r) with
    | none => 5
    | some ds => max 1 (min 10 (natOfDigits ds))

/-- Stable insertion for a descending sort by score: an element goes after
every earlier element whose score is at least as large, matching Python's
stable `sort(key=..., reverse=True)`. -/
def insertDesc (x : Nat × Doc) : List (Nat × Doc) → List (Nat × Doc)
  | [] => [x]
  | y :: ys => if y.1 ≤ x.1 then x :: y :: ys else y :: insertDesc x ys

def sortDescStable : List (Nat × Doc) → List (Nat × Doc)
  | [] => []
  | x :: xs => insertDesc x (sortDescStable xs)

/-- `AdvancedRAGSystem.rerank_documents` (vector.py:169-205): pass-through
for 3 or fewer documents, else score each, sort stably by score descending,
keep the top 6. -/
def rerank_documents (or : Oracles) (query : Str) (documents : List Doc) : List Doc :=
  if documents.length ≤ 3 then documents
  else
    ((sortDescStable (documents.map (fun d => (parseScore (or.score query d), d)))).take 6).map
      (fun p => p.2)

/-- `AdvancedRetriever.invoke` (vector.py:474-501). -/
def retriever_invoke (st : RAGState) (or : Oracles) (query : Str) : List Doc × RAGState :=
  if st.vectorstore = false ∧ st.bm25 = false then
    if st.documents ≠ [] then (st.documents.take 3, st)
    else ([⟨"No documents available for search".data, [(kSource, "system".data)]⟩], st)
  else
    let res := hybrid_search st or query 8
    if res.1 = [] then
      if res.2.documents ≠ [] then (res.2.documents.take 3, res.2)
      else ([⟨"No relevant documents found".data, [(kSource, "system".data)]⟩], res.2)
    else (rerank_documents or query res.1, res.2)

/-- The broader-search merge of `process_query_advanced_rag`
(main.py:198-216), with the retrieval abstracted as an oracle `R`: if the
first retrieval yields fewer than 3 documents and the lower-cased question
has more than one word, retrieve again with the first three words joined,
and dedup the concatenation by the first 100 content characters. -/
def qualityDocs (R : Str → List Doc) (question : Str) : List Doc :=
  let docs := R question
  if docs.length < 3 then
    let key_terms := pySplitWS (pyLower question)
    if key_terms.length > 1 then
      dedupByKey (fun d => d.page_content.take 100)
        (docs ++ R (joinSp (key_terms.take 3))) []
    else docs
  else docs

/-- The same merge with the concrete retriever and explicit state threading:
the document list handed to `format_context_advanced`. -/
def pipelineDocs (st : RAGState) (or : Oracles) (question : Str) : List Doc × RAGState :=
  let r1 := retriever_invoke st or question
  if r1.1.length < 3 then
    let key_terms := pySplitWS (pyLower question)
    if key_terms.length > 1 then
      let r2 := retriever_invoke r1.2 or (joinSp (key_terms.take 3))
      (dedupByKey (fun d => d.page_content.take 100) (r1.1 ++ r2.1) [], r2.2)
    else r1
  else r1

/-- The `source_info` string built for one document in
`format_context_advanced` (main.py:115-129). -/
def mkSourceInfo (d : Doc) : Str :=
  if d.metadata ≠ [] then
    let source := mgetD d.metadata kSource sUnknown
    let page := mgetD d.metadata kPage []
    let search_type := mgetD d.metadata kSearchType sStandard
    let search_method : Str :=
      if search_type = sVector ∨ search_type = sBm25 then
        '[' :: (pyUpper search_type ++ "] ".data)
      else []
    if page ≠ [] then
      search_method ++ "[Source: ".data ++ source ++ ", Page: ".data ++ page ++ "] ".data
    else
      search_method ++ "[Source: ".data ++ source ++ "] ".data
  else []

/-- The truncation of one document's content (main.py:131-151).  The float
thresholds `0.6`/`0.8` are embedded as the exact rationals 3/5 and 4/5. -/
def truncateContent (content source_info : Str) (remaining : Int) : Str :=
  if (content.length : Int) > remaining - (source_info.length : Int) then
    let truncated := pySliceTo (remaining - (source_info.length : Int) - 3) content
    let sentence_end :=
      max (max (rfindChar '.' truncated) (rfindChar '!' truncated)) (rfindChar '?' truncated)
    if sentence_end * 5 > (truncated.length : Int) * 3 then
      pySliceTo (sentence_end + 1) truncated
    else
      let word_end := rfindChar ' ' truncated
      if word_end * 5 > (truncated.length : Int) * 4 then
        pySliceTo word_end truncated ++ "...".data
      else truncated ++ "...".data
  else content

/-- `f"Document {i}: "`. -/
def docLabel (i : Nat) : Str := "Document ".data ++ Nat.toDigits 10 i ++ ": ".data

/-- The formatting loop of `format_context_advanced` (main.py:106-155) over
the first 6 prioritized documents, starting at label index 1 and total
length 0: returns the collected `context_parts` and the final
`total_length`.  A document is skipped (but the index still advances) when
its stripped content is empty or the running total has reached the cap. -/
def fmtLoop (maxLen : Nat) : List Doc → Nat → Nat → List Str × Nat
  | [], _, total => ([], total)
  | d :: rest, i, total =>
    let content := pyStrip d.page_content
    if content ≠ [] ∧ total < maxLen then
      let source_info := mkSourceInfo d
      let content2 := truncateContent content source_info ((maxLen : Int) - (total : Int))
      let formatted := docLabel i ++ source_info ++ content2
      let r := fmtLoop maxLen rest (i + 1) (total + formatted.length)
      (formatted :: r.1, r.2)
    else fmtLoop maxLen rest (i + 1) total

def natDigitsStr (n : Nat) : Str := Nat.toDigits 10 n

def vectorDocsOf (docs : List Doc) : List Doc :=
  docs.filter (fun d => mget d.metadata kSearchType = some sVector)

def bm25DocsOf (docs : List Doc) : List Doc :=
  docs.filter (fun d => mget d.metadata kSearchType = some sBm25)

/-- The trailing search-summary line (main.py:158). -/
def searchSummary (docs : List Doc) : Str :=
  "\n[Search Summary: Retrieved ".data ++ natDigitsStr docs.length ++
  " documents using hybrid search (Vector: ".data ++
  natDigitsStr (vectorDocsOf docs).length ++
  ", BM25: ".data ++ natDigitsStr (bm25DocsOf docs).length ++ ")]".data

/-- `all_docs_prioritized` (main.py:104): vector-tagged first, then
bm25-tagged, then every document value-equal to neither. -/
def prioritizedDocs (docs : List Doc) : List Doc :=
  vectorDocsOf docs ++ bm25DocsOf docs ++
    docs.filter (fun d => d ∉ vectorDocsOf docs ++ bm25DocsOf docs)

/-- Python `"\n\n".join(parts)`. -/
def joinParts : List Str → Str
  | [] => []
  | [x] => x
  | x :: y :: rest => x ++ "\n\n".data ++ joinParts (y :: rest)

/-- `format_context_advanced` (main.py:88-160).  `complexity_level` is
`query_analysis.get('complexity_level')`. -/
def format_context_advanced (docs : List Doc) (complexity_level : Option Str) : Str :=
  if docs = [] then "No relevant information found.".data
  else
    let maxLen := 3000 + (if complexity_level = some sHigh then 500 else 0)
    joinParts (fmtLoop maxLen ((prioritizedDocs docs).take 6) 1 0).1 ++ searchSummary docs

/-- A response-cache value: the generated answer plus its metrics dict. -/
structure CacheVal where
  response : Str
  docsCount : Nat
  quality : Str
  complexity : Str
deriving DecidableEq

/-- Python dict assignment for the cache (replace in place, else append). -/
def cset (m : List (Str × CacheVal)) (k : Str) (v : CacheVal) : List (Str × CacheVal) :=
  match m with
  | [] => [(k, v)]
  | p :: rest => if p.1 = k then (k, v) :: rest else p :: cset rest k v

/-- The caching step of `process_query_advanced_rag` (main.py:253-269): only
answers whose stripped length exceeds 30 are cached; when the cache has
reached `max_cache_size = 100`, the 15 iteration-oldest (= first-inserted)
entries are deleted before the insert. -/
def cacheInsert (cache : List (Str × CacheVal)) (key : Str) (v : CacheVal) :
    List (Str × CacheVal) :=
  if 30 < (pyStrip v.response).length then
    cset (if 100 ≤ cache.length then cache.drop 15 else cache) key v
  else cache

/-- The length of the longest single source label among the given documents
(used to state the formatter's claimed length bound). -/
def maxLabelLen (docs : List Doc) : Nat :=
  (docs.map (fun d => (mkSourceInfo d).length)).foldr max 0

/-- Upper bound for one formatted entry: `"Document i: "` (12 chars for the
single-digit indexes used) + label + stripped content + `"..."`. -/
def perDocBound (d : Doc) : Nat :=
  15 + (mkSourceInfo d).length + (pyStrip d.page_content).length

def maxPerDocBound (docs : List Doc) : Nat :=
  (docs.map perDocBound).foldr max 0

/-- An oracle set where every external call raises. -/
def orFail : Oracles :=
  ⟨fun _ => .error (), fun _ _ => .error (), fun _ => .error (), fun _ _ => .error ()⟩

def dSame : Doc := ⟨"same text".data, []⟩
def dAlpha : Doc := ⟨"alpha doc".data, [(kSource, "a".data)]⟩
def dHit : Doc := ⟨"hit one".data, []⟩
def dX : Doc := ⟨"xcontent".data, []⟩

/-- A state where only the vector index is available and no raw documents
exist. -/
def stVecOnly : RAGState := ⟨true, false, []⟩

/-- An oracle set whose vector search always returns one hit. -/
def orHit : Oracles := { orFail with vsearch := fun _ _ => .ok [dHit] }

/-- An oracle set whose vector search returns a hit only when queried for
exactly 1 result. -/
def orCountOne : Oracles :=
  { orFail with vsearch := fun _ n => .ok (if n = 1 then [dHit] else []) }

/-- An oracle set whose vector search always returns nothing. -/
def orCountNone : Oracles := { orFail with vsearch := fun _ _ => .ok [] }

def c8val : CacheVal := ⟨List.replicate 31 'a', 0, [], []⟩

def c8cache : List (Str × CacheVal) :=
  (List.range 100).map (fun i => (natDigitsStr i, c8val))

def sLow : Str := "low".data

/-- The formatter counterexample document: 4000 characters of content with
an ordinary bm25 label. -/
def c7doc : Doc := ⟨List.replicate 4000 'a', [(kSource, "s".data), (kSearchType, sBm25)]⟩

theorem collectQueries_append (lines : List Str) :
    ∀ acc : List Str, ∃ ex, collectQueries lines acc = acc ++ ex := by
  induction lines with
  | nil => intro acc; exact ⟨[], (List.append_nil acc).symm⟩
  | cons line rest ih =>
    intro acc
    simp only [collectQueries]
    split
    · split
      · obtain ⟨ex, hex⟩ := ih (acc ++ [pyStrip ((pyStrip line).drop 2)])
        exact ⟨_, by rw [hex, List.append_assoc]⟩
      · exact ih acc
    · exact ih acc

/-- C4: the claim says the first element equals the *trimmed* original
question.  The code puts the original question in untrimmed
(`queries = [original_query]`), so for `" hi "` the first element is
`" hi "`, not `"hi"`: the conjunction of the claim fails. -/
theorem C4_counterexample :
    ¬ ((rewrite_query " hi ".data (.error ())).head? = some (pyStrip " hi ".data) ∧
       1 ≤ (rewrite_query " hi ".data (.error ())).length ∧
       (rewrite_query " hi ".data (.error ())).length ≤ 4 ∧
       rewrite_query " hi ".data (.error ()) = [" hi ".data]) := by
  decide

/-- C4 (amended): for every question, `rewrite_query` returns a list whose
first element equals the original question exactly as passed (not trimmed),
of size between 1 and 4; and if the model call raises, the result is exactly
the singleton list containing the original question. -/
theorem C4_rewrite_query_amended (q : Str) (resp : Except Unit Str) :
    (rewrite_query q resp).head? = some q ∧
    1 ≤ (rewrite_query q resp).length ∧
    (rewrite_query q resp).length ≤ 4 ∧
    (∀ e : Unit, resp = .error e → rewrite_query q resp = [q]) := by
  cases resp with
  | error e => simp [rewrite_query]
  | ok r =>
    obtain ⟨ex, hex⟩ := collectQueries_append ((pyStrip r).splitOn '\n') [q]
    have hq : rewrite_query q (.ok r) = (q :: ex).take 4 := by
      simp only [rewrite_query, hex, List.cons_append, List.nil_append]
    refine ⟨?_, ?_, ?_, ?_⟩
    · rw [hq]; rfl
    · rw [hq]; simp [List.length_take]
    · rw [hq]; simp [List.length_take]
    · intro e he; cases he

/-- C4 witness: the amended theorem at a concrete input. -/
theorem C4_witness :
    (rewrite_query "w".data (.error ())).head? = some "w".data ∧
    1 ≤ (rewrite_query "w".data (.error ())).length ∧
    (rewrite_query "w".data (.error ())).length ≤ 4 ∧
    (∀ e : Unit, (Except.error e : Except Unit Str) = .error e →
      rewrite_query "w".data (.error e) = ["w".data]) := by
  have h := C4_rewrite_query_amended "w".data (.error ())
  exact ⟨h.1, h.2.1, h.2.2.1, fun e _ => (C4_rewrite_query_amended "w".data (.error e)).2.2.2 e rfl⟩

theorem length_insertDesc (x : Nat × Doc) (l : List (Nat × Doc)) :
    (insertDesc x l).length = l.length + 1 := by
  induction l with
  | nil => rfl
  | cons y ys ih => simp only [insertDesc]; split <;> simp [ih]

theorem length_sortDescStable (l : List (Nat × Doc)) :
    (sortDescStable l).length = l.length := by
  induction l with
  | nil => rfl
  | cons x xs ih => simp [sortDescStable, length_insertDesc, ih]

/-- C6: `rerank_documents` returns its input unchanged for 3 or fewer
documents, and its output never has more than 6 entries nor more entries
than the input. -/
theorem C6_rerank_documents (or : Oracles) (query : Str) (documents : List Doc) :
    (documents.length ≤ 3 → rerank_documents or query documents = documents) ∧
    (rerank_documents or query documents).length ≤ 6 ∧
    (rerank_documents or query documents).length ≤ documents.length := by
  by_cases h : documents.length ≤ 3
  · refine ⟨fun _ => by simp [rerank_documents, h], ?_, ?_⟩
    · simp only [rerank_documents, if_pos h]; omega
    · simp only [rerank_documents, if_pos h]; omega
  · refine ⟨fun h' => absurd h' h, ?_, ?_⟩ <;>
      simp [rerank_documents, h, length_sortDescStable]

/-- C6 witness: at a two-document input the reranker is the identity and the
size bounds hold. -/
theorem C6_witness :
    rerank_documents orFail "q".data [dHit, dSame] = [dHit, dSame] ∧
    (rerank_documents orFail "q".data [dHit, dSame]).length ≤ 6 ∧
    (rerank_documents orFail "q".data [dHit, dSame]).length ≤
      ([dHit, dSame] : List Doc).length := by
  have h := C6_rerank_documents orFail "q".data [dHit, dSame]
  exact ⟨h.1 (by decide), h.2.1, h.2.2⟩

theorem cset_append_of_not_mem (m : List (Str × CacheVal)) (k : Str) (v : CacheVal)
    (h : ∀ p ∈ m, p.1 ≠ k) : cset m k v = m ++ [(k, v)] := by
  induction m with
  | nil => rfl
  | cons p rest ih =>
    have hp : p.1 ≠ k := h p (List.mem_cons_self p rest)
    simp only [cset, if_neg hp, List.cons_append]
    rw [ih (fun q hq => h q (List.mem_cons_of_mem _ hq))]

/-- C8: inserting a qualifying answer (stripped length above 30) under a
fresh key into a 100-entry cache first evicts the 15 insertion-oldest
entries and then appends, leaving exactly 86 entries. -/
theorem C8_cache_eviction (cache : List (Str × CacheVal)) (key : Str) (v : CacheVal)
    (hlen : cache.length = 100)
    (hkey : ∀ p ∈ cache, p.1 ≠ key)
    (hq : 30 < (pyStrip v.response).length) :
    cacheInsert cache key v = cache.drop 15 ++ [(key, v)] ∧
    (cacheInsert cache key v).length = 86 := by
  have h100 : 100 ≤ cache.length := by omega
  have hkeys : ∀ p ∈ cache.drop 15, p.1 ≠ key :=
    fun p hp => hkey p (List.drop_subset 15 cache hp)
  have he : cacheInsert cache key v = cache.drop 15 ++ [(key, v)] := by
    unfold cacheInsert
    rw [if_pos hq, if_pos h100, cset_append_of_not_mem _ _ _ hkeys]
  refine ⟨he, ?_⟩
  rw [he]
  simp [List.length_append, List.length_drop, hlen]

/-- C8 witness: a concrete 100-entry cache receiving a fresh key. -/
theorem C8_witness :
    cacheInsert c8cache "new".data c8val = c8cache.drop 15 ++ [("new".data, c8val)] ∧
    (cacheInsert c8cache "new".data c8val).length = 86 :=
  C8_cache_eviction c8cache "new".data c8val (by decide) (by decide) (by decide)

theorem mem_dedupByKey_not_seen (key : Doc → Str) :
    ∀ (l : List Doc) (seen : List Str) (d : Doc),
      d ∈ dedupByKey key l seen → key d ∉ seen := by
  intro l
  induction l with
  | nil => intro seen d hd; simp [dedupByKey] at hd
  | cons x rest ih =>
    intro seen d hd
    simp only [dedupByKey] at hd
    split at hd
    · exact ih _ _ hd
    · rcases List.mem_cons.mp hd with h | h
      · subst h; assumption
      · have hnotin := ih _ _ h
        intro hc; exact hnotin (List.mem_cons_of_mem _ hc)

theorem pairwise_dedupByKey (key : Doc → Str) :
    ∀ (l : List Doc) (seen : List Str),
      List.Pairwise (fun a b => key a ≠ key b) (dedupByKey key l seen) := by
  intro l
  induction l with
  | nil => intro seen; simp [dedupByKey]
  | cons x rest ih =>
    intro seen
    simp only [dedupByKey]
    split
    · exact ih _
    · refine List.Pairwise.cons ?_ (ih _)
      intro b hb he
      exact mem_dedupByKey_not_seen key rest (key x :: seen) b hb
        (by rw [← he]; exact List.mem_cons_self _ _)

theorem sublist_dedupByKey (key : Doc → Str) :
    ∀ (l : List Doc) (seen : List Str), List.Sublist (dedupByKey key l seen) l := by
  intro l
  induction l with
  | nil => intro seen; simp [dedupByKey]
  | cons x rest ih =>
    intro seen
    simp only [dedupByKey]
    split
    · exact List.Sublist.cons _ (ih _)
    · exact List.Sublist.cons₂ _ (ih _)

/-- C10: when the first retrieval returns fewer than 3 documents and the
question has more than one word, the surfaced list is the concatenation of
the first retrieval with a second retrieval on the first three lower-cased
words, deduplicated by 100-character content prefixes, order preserving. -/
theorem C10_broader_search (R : Str → List Doc) (question : Str)
    (h1 : (R question).length < 3)
    (h2 : 1 < (pySplitWS (pyLower question)).length) :
    qualityDocs R question =
      dedupByKey (fun d => d.page_content.take 100)
        (R question ++ R (joinSp ((pySplitWS (pyLower question)).take 3))) [] ∧
    List.Pairwise (fun a b => a.page_content.take 100 ≠ b.page_content.take 100)
      (qualityDocs R question) ∧
    List.Sublist (qualityDocs R question)
      (R question ++ R (joinSp ((pySplitWS (pyLower question)).take 3))) := by
  have he : qualityDocs R question =
      dedupByKey (fun d => d.page_content.take 100)
        (R question ++ R (joinSp ((pySplitWS (pyLower question)).take 3))) [] := by
    simp only [qualityDocs]
    split
    · rfl
    · omega
  exact ⟨he, he ▸ pairwise_dedupByKey _ _ _, he ▸ sublist_dedupByKey _ _ _⟩

/-- C10 witness: a retriever constantly returning one document, on a
two-word question. -/
theorem C10_witness :
    List.Pairwise (fun a b => a.page_content.take 100 ≠ b.page_content.take 100)
      (qualityDocs (fun _ => [dX]) "alpha beta".data) :=
  (C10_broader_search (fun _ => [dX]) "alpha beta".data (by decide) (by decide)).2.1

theorem mget_cons (p : Str × Str) (m : List (Str × Str)) (k : Str) :
    mget (p :: m) k = if p.1 = k then some p.2 else mget m k := by
  by_cases h : p.1 = k <;> simp [mget, List.find?, h]

theorem mget_mset_self (m : List (Str × Str)) (k v : Str) :
    mget (mset m k v) k = some v := by
  induction m with
  | nil => simp [mset, mget_cons]
  | cons p rest ih =>
    by_cases hp : p.1 = k
    · simp [mset, hp, mget_cons]
    · simp [mset, hp, mget_cons, ih]

theorem mset_nil (k v : Str) : mset [] k v = [(k, v)] := rfl

theorem mset_cons (p : Str × Str) (rest : List (Str × Str)) (k v : Str) :
    mset (p :: rest) k v = if p.1 = k then (k, v) :: rest else p :: mset rest k v := rfl

theorem mget_mset_other (m : List (Str × Str)) (k k' v : Str) (h : k' ≠ k) :
    mget (mset m k v) k' = mget m k' := by
  have hkk : ¬ k = k' := fun hh => h hh.symm
  induction m with
  | nil =>
    rw [mset_nil, mget_cons, if_neg hkk]
  | cons p rest ih =>
    by_cases hp : p.1 = k
    · rw [mset_cons, if_pos hp, mget_cons, mget_cons, hp, if_neg hkk, if_neg hkk]
    · rw [mset_cons, if_neg hp, mget_cons, mget_cons, ih]

theorem mget_tagDoc (stv qv : Str) (d : Doc) :
    mget (tagDoc stv qv d).metadata kSearchType = some stv := by
  simp only [tagDoc]
  rw [mget_mset_other _ _ _ _ (by decide), mget_mset_self]

/-- C1: the stated dedup invariant fails on the fallback return path: with
both indexes unavailable and two identical documents in the global set,
`hybrid_search` returns both, with equal content fingerprints. -/
theorem C1_counterexample :
    ¬ List.Pairwise (fun a b => fingerprint a ≠ fingerprint b)
      (hybrid_search ⟨false, false, [dSame, dSame]⟩ orFail "q".data 6).1 := by
  decide

/-- C1 (amended): on the deduplicated return path — whenever the candidate
list survives dedup non-empty — the result is the deduplicated candidate
list cut to `2k`, and no two returned entries share a 200-character content
fingerprint.  (The fallback path returns the first `k` raw documents
without deduplication.) -/
theorem C1_hybrid_dedup_amended (st : RAGState) (or : Oracles) (query : Str) (k : Nat)
    (h : dedupByKey fingerprint (allResults st or query k) [] ≠ []) :
    (hybrid_search st or query k).1 =
      (dedupByKey fingerprint (allResults st or query k) []).take (k * 2) ∧
    List.Pairwise (fun a b => fingerprint a ≠ fingerprint b)
      (hybrid_search st or query k).1 := by
  have he : (hybrid_search st or query k).1 =
      (dedupByKey fingerprint (allResults st or query k) []).take (k * 2) := by
    simp only [hybrid_search]
    split
    · next hu => exact absurd hu h
    · rfl
  refine ⟨he, ?_⟩
  rw [he]
  exact (pairwise_dedupByKey _ _ _).sublist (List.take_sublist _ _)

/-- C1 witness: one vector hit survives dedup; the result equals the cut
dedup list and is fingerprint-pairwise-distinct. -/
theorem C1_witness :
    (hybrid_search stVecOnly orHit "q".data 6).1 =
      (dedupByKey fingerprint (allResults stVecOnly orHit "q".data 6) []).take (6 * 2) ∧
    List.Pairwise (fun a b => fingerprint a ≠ fingerprint b)
      (hybrid_search stVecOnly orHit "q".data 6).1 :=
  C1_hybrid_dedup_amended stVecOnly orHit "q".data 6 (by decide)

/-- C9: the claim that tags are never persisted fails: on the fallback path
`fallback_docs` aliases `self.documents`, so the tags are written into the
global document set — here the post-call state differs from the pre-call
state and its first document carries `search_type = 'fallback'`. -/
theorem C9_counterexample :
    (hybrid_search ⟨false, false, [dAlpha]⟩ orFail "q".data 6).2.documents ≠ [dAlpha] ∧
    mget ((hybrid_search ⟨false, false, [dAlpha]⟩ orFail "q".data 6).2.documents.headD
      dSame).metadata kSearchType = some sFallback := by
  decide

/-- C9 (amended): on the deduplicated return path the global state is left
unchanged; on the fallback path `hybrid_search` writes the fallback tags
into the metadata of the first `k` global documents, and they persist in the
post-call state. -/
theorem C9_hybrid_frame_amended (st : RAGState) (or : Oracles) (query : Str) (k : Nat) :
    (dedupByKey fingerprint (allResults st or query k) [] ≠ [] →
      (hybrid_search st or query k).2 = st) ∧
    (dedupByKey fingerprint (allResults st or query k) [] = [] → st.documents ≠ [] →
      (hybrid_search st or query k).2.documents =
        (st.documents.take k).map (tagDoc sFallback query) ++ st.documents.drop k ∧
      ∀ d ∈ (hybrid_search st or query k).2.documents.take (min k st.documents.length),
        mget d.metadata kSearchType = some sFallback) := by
  constructor
  · intro h
    simp only [hybrid_search]
    split
    · next hu => exact absurd hu h
    · rfl
  · intro h hd
    have he2 : (hybrid_search st or query k).2.documents =
        (st.documents.take k).map (tagDoc sFallback query) ++ st.documents.drop k := by
      simp only [hybrid_search]
      rw [if_pos h, if_pos hd]
    refine ⟨he2, ?_⟩
    intro d hdm
    rw [he2] at hdm
    have hlen : ((st.documents.take k).map (tagDoc sFallback query)).length =
        min k st.documents.length := by
      simp [List.length_map, List.length_take]
    rw [List.take_left' hlen] at hdm
    rcases List.mem_map.mp hdm with ⟨d0, _, hd0⟩
    rw [← hd0]
    exact mget_tagDoc _ _ _

/-- C9 witness: the fallback path at `k = 1` rewrites the first global
document in place. -/
theorem C9_witness :
    (hybrid_search ⟨false, false, [dSame, dAlpha]⟩ orFail "w".data 1).2.documents =
      (([dSame, dAlpha] : List Doc).take 1).map (tagDoc sFallback "w".data) ++
        ([dSame, dAlpha] : List Doc).drop 1 :=
  ((C9_hybrid_frame_amended ⟨false, false, [dSame, dAlpha]⟩ orFail "w".data 1).2
    (by decide) (by decide)).1

/-- C5: the claim says both indexes are queried for `ceil(k/2)` results.
At `k = 3` the code queries the vector index for `max(1, 3 // 2) = 1`, not
`ceil(3/2) = 2`: two vector oracles agreeing at count 2 still give different
hybrid results, so the index cannot have been queried at count 2. -/
theorem C5_counterexample :
    (∀ q : Str, orCountOne.vsearch q ((3 + 1) / 2) = orCountNone.vsearch q ((3 + 1) / 2)) ∧
    hybrid_search stVecOnly orCountOne "q".data 3 ≠
      hybrid_search stVecOnly orCountNone "q".data 3 := by
  refine ⟨fun q => rfl, ?_⟩
  decide

theorem variantResults_congr (st : RAGState) (k : Nat) (orA orB : Oracles)
    (hv : ∀ q, orA.vsearch q (half_k k) = orB.vsearch q (half_k k))
    (hb : ∀ q, Except.map (fun rs => rs.take (half_k k)) (orA.bmsearch q) =
               Except.map (fun rs => rs.take (half_k k)) (orB.bmsearch q)) :
    ∀ q, variantResults st orA k q = variantResults st orB k q := by
  intro q
  simp only [variantResults]
  have h1 : (if st.vectorstore then
      pyCatch (Except.map (fun rs => rs.map (tagDoc sVector q)) (orA.vsearch q (half_k k))) []
    else []) = (if st.vectorstore then
      pyCatch (Except.map (fun rs => rs.map (tagDoc sVector q)) (orB.vsearch q (half_k k))) []
    else []) := by
    rw [hv q]
  have h2 : (if st.bm25 then
      pyCatch (Except.map (fun rs => (rs.take (half_k k)).map (tagDoc sBm25 q)) (orA.bmsearch q)) []
    else []) = (if st.bm25 then
      pyCatch (Except.map (fun rs => (rs.take (half_k k)).map (tagDoc sBm25 q)) (orB.bmsearch q)) []
    else []) := by
    have hbq := hb q
    cases hA : orA.bmsearch q <;> cases hB : orB.bmsearch q <;>
      rw [hA, hB] at hbq <;> simp [Except.map] at hbq
    simp only [pyCatch, Except.map]
    rw [hbq]
  rw [h1, h2]

/-- C5 (amended): for each variant the vector index is consulted only at
count `max(1, k // 2)` (not `ceil(k/2)`), and the keyword index's own result
list is used only through its first `max(1, k // 2)` entries: hybrid search
results are invariant under any change of the oracles outside those
observations. -/
theorem C5_query_counts_amended (st : RAGState) (query : Str) (k : Nat) (orA orB : Oracles)
    (hrw : orA.rewrite = orB.rewrite)
    (hv : ∀ q, orA.vsearch q (half_k k) = orB.vsearch q (half_k k))
    (hb : ∀ q, Except.map (fun rs => rs.take (half_k k)) (orA.bmsearch q) =
               Except.map (fun rs => rs.take (half_k k)) (orB.bmsearch q)) :
    hybrid_search st orA query k = hybrid_search st orB query k := by
  have hvar := variantResults_congr st k orA orB hv hb
  have hfold : ∀ (l : List Str) (acc : List Doc),
      l.foldl (fun acc q => acc ++ variantResults st orA k q) acc =
      l.foldl (fun acc q => acc ++ variantResults st orB k q) acc := by
    intro l
    induction l with
    | nil => intro acc; rfl
    | cons q rest ih => intro acc; simp only [List.foldl, hvar q, ih]
  have hall : allResults st orA query k = allResults st orB query k := by
    simp only [allResults, hrw, hfold]
  simp only [hybrid_search, hall]

/-- C5 witness: two oracles that agree at the consulted count `max(1, 2//2)`
give identical hybrid results. -/
theorem C5_witness :
    hybrid_search stVecOnly orCountOne "w".data 2 = hybrid_search stVecOnly orHit "w".data 2 :=
  C5_query_counts_amended stVecOnly "w".data 2 orCountOne orHit rfl
    (fun _ => rfl) (fun _ => rfl)

theorem ok_bind {α β : Type} (a : α) (f : α → Except Unit β) :
    (Except.ok a >>= f : Except Unit β) = f a := rfl

/-- C3: `hybrid_search` never lets an exception escape: the exception-monad
rendering of the operation — where the rewriter call and each per-variant
sub-search may raise, caught exactly where the source catches them — always
returns `ok` of the total function's result, for every oracle behavior. -/
theorem C3_hybrid_no_raise (st : RAGState) (or : Oracles) (query : Str) (k : Nat) :
    hybrid_searchE st or query k = Except.ok (hybrid_search st or query k) := by
  have hrw : rewriteE query (or.rewrite query) =
      Except.ok (rewrite_query query (or.rewrite query)) := by
    cases h : or.rewrite query <;> simp [rewriteE, rewrite_query, pyTryE, Except.map]
  have hvr : ∀ q, variantResultsE st or k q = Except.ok (variantResults st or k q) := by
    intro q
    cases hvs : st.vectorstore <;> cases hbm : st.bm25 <;>
      cases hv : or.vsearch q (half_k k) <;> cases hb : or.bmsearch q <;>
        simp [variantResultsE, variantResults, pyTryE, pyCatch, Except.map, hvs, hbm, hv, hb] <;>
          rfl
  have hfold : ∀ (l : List Str) (acc : List Doc),
      accumResultsE st or k l acc =
      Except.ok (l.foldl (fun acc q => acc ++ variantResults st or k q) acc) := by
    intro l
    induction l with
    | nil => intro acc; rfl
    | cons q rest ih =>
      intro acc
      simp only [accumResultsE]
      rw [hvr q]
      exact ih (acc ++ variantResults st or k q)
  simp only [hybrid_searchE]
  rw [hrw, ok_bind, hfold, ok_bind]
  rfl

theorem mem_insertDesc (x : Nat × Doc) (l : List (Nat × Doc)) (y : Nat × Doc)
    (h : y ∈ insertDesc x l) : y = x ∨ y ∈ l := by
  induction l with
  | nil =>
    simp only [insertDesc] at h
    rcases List.mem_cons.mp h with h | h
    · exact Or.inl h
    · simp at h
  | cons z zs ih =>
    simp only [insertDesc] at h
    split at h
    · rcases List.mem_cons.mp h with h | h
      · exact Or.inl h
      · exact Or.inr h
    · rcases List.mem_cons.mp h with h | h
      · exact Or.inr (h ▸ List.mem_cons_self z zs)
      · rcases ih h with h' | h'
        · exact Or.inl h'
        · exact Or.inr (List.mem_cons_of_mem _ h')

theorem mem_sortDescStable (l : List (Nat × Doc)) (y : Nat × Doc)
    (h : y ∈ sortDescStable l) : y ∈ l := by
  induction l with
  | nil => simp [sortDescStable] at h
  | cons x xs ih =>
    simp only [sortDescStable] at h
    rcases mem_insertDesc _ _ _ h with h' | h'
    · exact h' ▸ List.mem_cons_self x xs
    · exact List.mem_cons_of_mem _ (ih h')

theorem mem_rerank (or : Oracles) (query : Str) (docs : List Doc) (d : Doc)
    (h : d ∈ rerank_documents or query docs) : d ∈ docs := by
  simp only [rerank_documents] at h
  split at h
  · exact h
  · rcases List.mem_map.mp h with ⟨p, hp, hpd⟩
    have hp1 : p ∈ sortDescStable
        (docs.map (fun d => (parseScore (or.score query d), d))) :=
      List.take_subset _ _ hp
    have hp2 := mem_sortDescStable _ _ hp1
    rcases List.mem_map.mp hp2 with ⟨d', hd', he⟩
    rw [← hpd, ← he]
    exact hd'

theorem mem_foldl_append (f : Str → List Doc) :
    ∀ (l : List Str) (acc : List Doc) (d : Doc),
      d ∈ l.foldl (fun acc q => acc ++ f q) acc → d ∈ acc ∨ ∃ q ∈ l, d ∈ f q := by
  intro l
  induction l with
  | nil => intro acc d h; exact Or.inl h
  | cons q rest ih =>
    intro acc d h
    rcases ih _ _ h with h' | ⟨q', hq', hd'⟩
    · rcases List.mem_append.mp h' with h'' | h''
      · exact Or.inl h''
      · exact Or.inr ⟨q, List.mem_cons_self _ _, h''⟩
    · exact Or.inr ⟨q', List.mem_cons_of_mem _ hq', hd'⟩

theorem mem_variantResults_tagged (st : RAGState) (or : Oracles) (k : Nat) (q : Str)
    (d : Doc) (hd : d ∈ variantResults st or k q) :
    mget d.metadata kSearchType = some sVector ∨
    mget d.metadata kSearchType = some sBm25 := by
  simp only [variantResults] at hd
  rcases List.mem_append.mp hd with h | h
  · left
    split at h
    · cases hv : or.vsearch q (half_k k) with
      | ok rs =>
        rw [hv] at h
        simp only [pyCatch, Except.map] at h
        rcases List.mem_map.mp h with ⟨d0, _, hd0⟩
        rw [← hd0]
        exact mget_tagDoc _ _ _
      | error e =>
        rw [hv] at h
        simp [pyCatch, Except.map] at h
    · simp at h
  · right
    split at h
    · cases hb : or.bmsearch q with
      | ok rs =>
        rw [hb] at h
        simp only [pyCatch, Except.map] at h
        rcases List.mem_map.mp h with ⟨d0, _, hd0⟩
        rw [← hd0]
        exact mget_tagDoc _ _ _
      | error e =>
        rw [hb] at h
        simp [pyCatch, Except.map] at h
    · simp at h

theorem hybrid_tagged (st : RAGState) (or : Oracles) (query : Str) (k : Nat) :
    ∀ d ∈ (hybrid_search st or query k).1,
      (mget d.metadata kSearchType).getD [] ≠ [] := by
  intro d hd
  simp only [hybrid_search] at hd
  split at hd
  · split at hd
    · rcases List.mem_map.mp hd with ⟨d0, _, hd0⟩
      rw [← hd0, mget_tagDoc]
      decide
    · simp at hd
  · have hd1 : d ∈ dedupByKey fingerprint (allResults st or query k) [] :=
      List.take_subset _ _ hd
    have hd2 : d ∈ allResults st or query k :=
      (sublist_dedupByKey fingerprint _ _).subset hd1
    rcases mem_foldl_append _ _ _ _ hd2 with h | ⟨q', _, hd'⟩
    · simp at h
    · rcases mem_variantResults_tagged st or k q' d hd' with h | h <;>
        rw [h] <;> decide

/-- C2: the claim fails on the retriever's own fallback paths: with both
indexes unavailable and one untagged global document, the pipeline surfaces
that document to the formatter with no `search_type` in its metadata. -/
theorem C2_counterexample :
    ¬ (∀ d ∈ (pipelineDocs ⟨false, false, [dAlpha]⟩ orFail "hello".data).1,
        (mget d.metadata kSearchType).getD [] ≠ []) := by
  decide

/-- C2 (amended): every document surfaced through `hybrid_search` carries a
non-empty `search_type` (vector, bm25 or fallback); so whenever at least one
index is available and the hybrid search returns results, every document the
retriever surfaces is tagged.  The retriever's own fallback paths (no index
available, or an empty document set) surface documents with no
`search_type`, which the formatter later defaults to `standard`. -/
theorem C2_search_type_amended (st : RAGState) (or : Oracles) (q : Str)
    (hidx : st.vectorstore = true ∨ st.bm25 = true)
    (hres : (hybrid_search st or q 8).1 ≠ []) :
    ∀ d ∈ (retriever_invoke st or q).1,
      (mget d.metadata kSearchType).getD [] ≠ [] := by
  intro d hd
  have hcond : ¬ (st.vectorstore = false ∧ st.bm25 = false) := by
    rcases hidx with h | h <;> simp [h]
  simp only [retriever_invoke, if_neg hcond] at hd
  rw [if_neg hres] at hd
  exact hybrid_tagged st or q 8 d (mem_rerank or q _ d hd)

/-- C2 witness: with the vector index available and one hit, the surfaced
document is vector-tagged. -/
theorem C2_witness :
    (mget (tagDoc sVector "w".data dHit).metadata kSearchType).getD [] ≠ [] :=
  C2_search_type_amended stVecOnly orHit "w".data (Or.inl rfl) (by decide)
    (tagDoc sVector "w".data dHit) (by decide)

theorem dropWhile_replicate_of_false (p : Char → Bool) (a : Char) (h : p a = false) :
    ∀ n, (List.replicate n a).dropWhile p = List.replicate n a := by
  intro n
  cases n with
  | zero => rfl
  | succ m => simp [List.replicate_succ, List.dropWhile_cons, h]

theorem pyStrip_replicate_a (n : Nat) :
    pyStrip (List.replicate n 'a') = List.replicate n 'a' := by
  unfold pyStrip
  rw [dropWhile_replicate_of_false pyIsSpace 'a' (by decide) n, List.reverse_replicate,
    dropWhile_replicate_of_false pyIsSpace 'a' (by decide) n, List.reverse_replicate]

theorem rfindChar_replicate_a (c : Char) (h : ('a' = c) = False) :
    ∀ n, rfindChar c (List.replicate n 'a') = -1 := by
  intro n
  induction n with
  | zero => rfl
  | succ m ih => simp [List.replicate_succ, rfindChar, ih, h]

theorem pySliceTo_nonneg_replicate (n : Int) (m : Nat) (h : 0 ≤ n) :
    pySliceTo n (List.replicate m 'a') = List.replicate (min n.toNat m) 'a' := by
  unfold pySliceTo
  rw [if_neg (by omega), List.take_replicate]

theorem c7_trunc_eval :
    truncateContent (List.replicate 4000 'a') "[BM25] [Source: s] ".data 3000 =
      List.replicate 2978 'a' ++ "...".data := by
  have hlen : ("[BM25] [Source: s] ".data : Str).length = 19 := by decide
  simp only [truncateContent, List.length_replicate, hlen]
  rw [if_pos (by norm_num)]
  rw [show ((3000 : Int) - ((19 : Nat) : Int) - 3) = 2978 by norm_num]
  rw [pySliceTo_nonneg_replicate 2978 4000 (by norm_num)]
  rw [show min (Int.toNat 2978) 4000 = 2978 by decide]
  rw [rfindChar_replicate_a '.' (by decide) 2978, rfindChar_replicate_a '!' (by decide) 2978,
    rfindChar_replicate_a '?' (by decide) 2978, rfindChar_replicate_a ' ' (by decide) 2978]
  rw [if_neg (by norm_num), if_neg (by norm_num)]

theorem fmtLoop_nil (maxLen i total : Nat) : fmtLoop maxLen [] i total = ([], total) := rfl

theorem fmtLoop_cons (maxLen : Nat) (d : Doc) (rest : List Doc) (i total : Nat) :
    fmtLoop maxLen (d :: rest) i total =
      if pyStrip d.page_content ≠ [] ∧ total < maxLen then
        ((docLabel i ++ mkSourceInfo d ++
            truncateContent (pyStrip d.page_content) (mkSourceInfo d)
              ((maxLen : Int) - (total : Int))) ::
          (fmtLoop maxLen rest (i + 1)
            (total + (docLabel i ++ mkSourceInfo d ++
              truncateContent (pyStrip d.page_content) (mkSourceInfo d)
                ((maxLen : Int) - (total : Int))).length)).1,
         (fmtLoop maxLen rest (i + 1)
            (total + (docLabel i ++ mkSourceInfo d ++
              truncateContent (pyStrip d.page_content) (mkSourceInfo d)
                ((maxLen : Int) - (total : Int))).length)).2)
      else fmtLoop maxLen rest (i + 1) total := rfl

theorem c7_format_eval :
    format_context_advanced [c7doc] (some sLow) =
      ("Document 1: ".data ++ "[BM25] [Source: s] ".data ++
        (List.replicate 2978 'a' ++ "...".data)) ++ searchSummary [c7doc] := by
  have hv : vectorDocsOf [c7doc] = [] := by decide
  have hb25 : bm25DocsOf [c7doc] = [c7doc] := by
    simp only [bm25DocsOf]
    rw [List.filter_cons, if_pos (by decide), List.filter_nil]
  have hfil : [c7doc].filter (fun d => d ∉ ([c7doc] : List Doc)) = [] := by
    have hp : decide (c7doc ∉ ([c7doc] : List Doc)) = false := by
      rw [decide_eq_false_iff_not]
      exact fun hn => hn (List.mem_cons_self _ _)
    rw [List.filter_cons, hp, if_neg Bool.false_ne_true, List.filter_nil]
  have hprio : (prioritizedDocs [c7doc]).take 6 = [c7doc] := by
    simp only [prioritizedDocs, hv, hb25, List.nil_append, hfil, List.append_nil]
    rfl
  have hcontent : pyStrip c7doc.page_content = List.replicate 4000 'a' := by
    show pyStrip (List.replicate 4000 'a') = List.replicate 4000 'a'
    exact pyStrip_replicate_a 4000
  have hsi : mkSourceInfo c7doc = "[BM25] [Source: s] ".data := by decide
  have hrep : List.replicate 4000 'a' ≠ [] :=
    List.length_pos.mp (by rw [List.length_replicate]; omega)
  unfold format_context_advanced
  rw [if_neg (by simp : ¬ ([c7doc] = []))]
  rw [if_neg (show ¬ ((some sLow : Option Str) = some sHigh) by decide)]
  rw [hprio]
  show joinParts (fmtLoop (3000 + 0) [c7doc] 1 0).1 ++ searchSummary [c7doc] =
    "Document 1: ".data ++ "[BM25] [Source: s] ".data ++
      (List.replicate 2978 'a' ++ "...".data) ++ searchSummary [c7doc]
  rw [fmtLoop_cons]
  rw [hcontent, hsi]
  rw [if_pos ⟨hrep, by norm_num⟩]
  rw [show (((3000 + 0 : Nat) : Int) - ((0 : Nat) : Int)) = 3000 by norm_num]
  rw [c7_trunc_eval]
  rfl

/-- C7: the claimed bound (budget + longest single label length) fails: one
4000-character document under the 3000 budget yields an output of 3093
characters — the `Document i:` prefix is not counted against the budget and
the search-summary line is appended outside it — exceeding
3000 + 19 (its only label's length). -/
theorem C7_counterexample :
    ¬ ((format_context_advanced [c7doc] (some sLow)).length ≤ 3000 + maxLabelLen [c7doc]) := by
  have hsum : (searchSummary [c7doc]).length = 81 := by decide
  have hml : maxLabelLen [c7doc] = 19 := by decide
  have hlen : (format_context_advanced [c7doc] (some sLow)).length = 3093 := by
    rw [c7_format_eval]
    have h1 : ("Document 1: ".data : Str).length = 12 := by decide
    have h2 : ("[BM25] [Source: s] ".data : Str).length = 19 := by decide
    have h3 : ("...".data : Str).length = 3 := by decide
    simp only [List.length_append, List.length_replicate, h1, h2, h3, hsum]
  rw [hlen, hml]
  omega

theorem pySliceTo_length_le (n : Int) (l : Str) : (pySliceTo n l).length ≤ l.length := by
  unfold pySliceTo
  split <;> simp [List.length_take]

theorem truncateContent_length_le (content si : Str) (rem : Int) :
    (truncateContent content si rem).length ≤ content.length + 3 := by
  simp only [truncateContent]
  split
  · split
    · exact le_trans (pySliceTo_length_le _ _)
        (le_trans (pySliceTo_length_le _ _) (Nat.le_add_right _ _))
    · split
      · simp only [List.length_append, List.length_cons, List.length_nil]
        have h1 := pySliceTo_length_le (rfindChar ' ' (pySliceTo (rem - si.length - 3) content))
          (pySliceTo (rem - si.length - 3) content)
        have h2 := pySliceTo_length_le (rem - si.length - 3) content
        omega
      · simp only [List.length_append, List.length_cons, List.length_nil]
        have h2 := pySliceTo_length_le (rem - si.length - 3) content
        omega
  · omega

theorem docLabel_length_eq (i : Nat) (h1 : 1 ≤ i) (h2 : i ≤ 6) : (docLabel i).length = 12 := by
  interval_cases i <;> decide

theorem foldr_max_le_of_mem (f : Doc → Nat) (d : Doc) (l : List Doc) (h : d ∈ l) :
    f d ≤ (l.map f).foldr max 0 := by
  induction l with
  | nil => simp at h
  | cons x xs ih =>
    rcases List.mem_cons.mp h with h' | h'
    · rw [h']
      simp only [List.map_cons, List.foldr_cons]
      exact le_max_left _ _
    · simp only [List.map_cons, List.foldr_cons]
      exact le_trans (ih h') (le_max_right _ _)

theorem mem_prioritizedDocs (docs : List Doc) (d : Doc) (h : d ∈ prioritizedDocs docs) :
    d ∈ docs := by
  simp only [prioritizedDocs] at h
  rcases List.mem_append.mp h with h' | h'
  · rcases List.mem_append.mp h' with h'' | h''
    · exact List.mem_of_mem_filter h''
    · exact List.mem_of_mem_filter h''
  · exact List.mem_of_mem_filter h'

theorem joinParts_length_le (parts : List Str) :
    (joinParts parts).length ≤ (parts.map List.length).sum + 2 * parts.length := by
  induction parts with
  | nil => simp [joinParts]
  | cons x rest ih =>
    cases rest with
    | nil => simp [joinParts]
    | cons y ys =>
      simp only [joinParts, List.length_append, List.map_cons, List.sum_cons,
        List.length_cons, List.length_nil] at ih ⊢
      omega

theorem fmtLoop_bound (maxLen B : Nat) :
    ∀ (ds : List Doc) (i total : Nat),
      (∀ d ∈ ds, perDocBound d ≤ B) → 1 ≤ i → i + ds.length ≤ 7 →
      ((fmtLoop maxLen ds i total).1.map List.length).sum + total ≤ max total (maxLen + B) ∧
      (fmtLoop maxLen ds i total).1.length ≤ ds.length := by
  intro ds
  induction ds with
  | nil =>
    intro i total hB h1 h7
    constructor
    · simp [fmtLoop]
    · simp [fmtLoop]
  | cons d rest ih =>
    intro i total hB h1 h7
    have h7' : (i + 1) + rest.length ≤ 7 := by
      simp only [List.length_cons] at h7; omega
    have hB' : ∀ d' ∈ rest, perDocBound d' ≤ B :=
      fun d' hd' => hB d' (List.mem_cons_of_mem _ hd')
    rw [fmtLoop_cons]
    split
    · next hcond =>
      have hi6 : i ≤ 6 := by simp only [List.length_cons] at h7; omega
      have hdl : (docLabel i).length = 12 := docLabel_length_eq i h1 hi6
      have hpb : perDocBound d ≤ B := hB d (List.mem_cons_self _ _)
      have htr := truncateContent_length_le (pyStrip d.page_content) (mkSourceInfo d)
        ((maxLen : Int) - (total : Int))
      have hfl : (docLabel i ++ mkSourceInfo d ++
          truncateContent (pyStrip d.page_content) (mkSourceInfo d)
            ((maxLen : Int) - (total : Int))).length ≤ B := by
        simp only [List.length_append, hdl]
        simp only [perDocBound] at hpb
        omega
      rcases ih (i + 1) (total + (docLabel i ++ mkSourceInfo d ++
          truncateContent (pyStrip d.page_content) (mkSourceInfo d)
            ((maxLen : Int) - (total : Int))).length) hB' (by omega) h7' with ⟨ihs, ihc⟩
      constructor
      · simp only [List.map_cons, List.sum_cons]
        have hc2 : total < maxLen := hcond.2
        omega
      · simp only [List.length_cons]
        omega
    · rcases ih (i + 1) total hB' (by omega) h7' with ⟨ihs, ihc⟩
      constructor
      · exact ihs
      · simp only [List.length_cons]
        omega

/-- C7 (amended): the formatter returns exactly
`"No relevant information found."` for the empty list; its output length is
bounded by the budget (3000, +500 when complexity is high) plus the largest
per-document overhead (label + stripped content + 15) plus 12 for the
blank-line separators plus the summary-line length.  The claimed tighter
bound of budget + longest label alone does not hold. -/
theorem C7_format_bound_amended (docs : List Doc) (lvl : Option Str) :
    (docs = [] → format_context_advanced docs lvl = "No relevant information found.".data) ∧
    (format_context_advanced docs lvl).length ≤
      (3000 + (if lvl = some sHigh then 500 else 0)) + maxPerDocBound docs + 12 +
        (searchSummary docs).length := by
  constructor
  · intro h; rw [h]; rfl
  · by_cases hd : docs = []
    · rw [hd]
      have hfe : format_context_advanced [] lvl = "No relevant information found.".data := rfl
      rw [hfe]
      have h30 : ("No relevant information found.".data : Str).length = 30 := by decide
      rw [h30]
      have hite : 3000 ≤ 3000 + (if lvl = some sHigh then 500 else 0) := by split <;> omega
      omega
    · unfold format_context_advanced
      rw [if_neg hd]
      show (joinParts (fmtLoop (3000 + (if lvl = some sHigh then 500 else 0))
          ((prioritizedDocs docs).take 6) 1 0).1 ++ searchSummary docs).length ≤ _
      have hB : ∀ d' ∈ (prioritizedDocs docs).take 6, perDocBound d' ≤ maxPerDocBound docs := by
        intro d' hd'
        simp only [maxPerDocBound]
        exact foldr_max_le_of_mem perDocBound d' docs
          (mem_prioritizedDocs docs d' (List.take_subset _ _ hd'))
      have h7 : 1 + ((prioritizedDocs docs).take 6).length ≤ 7 := by
        simp only [List.length_take]
        omega
      rcases fmtLoop_bound (3000 + (if lvl = some sHigh then 500 else 0)) (maxPerDocBound docs)
        ((prioritizedDocs docs).take 6) 1 0 hB (le_refl 1) h7 with ⟨hs, hc⟩
      have hj := joinParts_length_le (fmtLoop (3000 + (if lvl = some sHigh then 500 else 0))
        ((prioritizedDocs docs).take 6) 1 0).1
      have hc6 : ((prioritizedDocs docs).take 6).length ≤ 6 := by
        simp only [List.length_take]
        omega
      simp only [List.length_append]
      omega

/-- C7 witness: the empty-input case of the amended theorem. -/
theorem C7_witness :
    format_context_advanced [] none = "No relevant information found.".data ∧
    (format_context_advanced [] none).length ≤
      (3000 + (if (none : Option Str) = some sHigh then 500 else 0)) + maxPerDocBound [] + 12 +
        (searchSummary []).length :=
  ⟨(C7_format_bound_amended [] none).1 rfl, (C7_format_bound_amended [] none).2⟩
